import Mathlib

/-!
Shallow embedding of the invoice extraction and fraud-scoring core of the
repository (src/src/services/fraudDetectionService.ts,
src/src/services/ocrService.ts, src/src/pages/Index.tsx and the document
analysis service).  JavaScript numbers are modelled as exact rationals (ℚ);
strings are Lean strings / char lists.  External effects (the OCR engine,
PDF.js calls, Date parsing, the current clock) are passed in explicitly as
oracle arguments or an environment record, so every definition is a pure,
executable function of its inputs.
-/

/-! ### JavaScript primitives -/

/-- The whitespace characters matched by the JavaScript regex class.
(The exotic Unicode space characters are irrelevant to this code base.) -/
def jsIsSpace (c : Char) : Bool :=
  c = ' ' ∨ c = '\t' ∨ c = '\n' ∨ c = '\r' ∨ c = '\x0b' ∨ c = '\x0c' ∨ c = ' '

/-- `Math.round`: round half toward positive infinity. -/
def jsRound (x : ℚ) : Int := ⌊x + 1/2⌋

/-- Numeric value of a list of decimal digit characters. -/
def digitsToNat (l : List Char) : Nat :=
  l.foldl (fun a c => a * 10 + (c.toNat - 48)) 0

/-- `parseFloat`: skip leading whitespace, optional sign, decimal digits with
optional fraction and exponent; `none` models `NaN` (no digits at all).
`"Infinity"` inputs (which JavaScript accepts) are not modelled; no caller in
this code base produces them. -/
def jsParseFloat (s : String) : Option ℚ :=
  let l := s.data.dropWhile jsIsSpace
  let signAndRest : ℚ × List Char :=
    match l with
    | '-' :: t => (-1, t)
    | '+' :: t => (1, t)
    | _ => (1, l)
  let sign := signAndRest.1
  let l1 := signAndRest.2
  let ip := l1.takeWhile Char.isDigit
  let l2 := l1.dropWhile Char.isDigit
  let fpAndRest : List Char × List Char :=
    match l2 with
    | '.' :: t => (t.takeWhile Char.isDigit, t.dropWhile Char.isDigit)
    | _ => ([], l2)
  let fp := fpAndRest.1
  let l3 := fpAndRest.2
  if ip = [] ∧ fp = [] then none
  else
    let mant : ℚ := (digitsToNat ip : ℚ) + (digitsToNat fp : ℚ) / (10 : ℚ) ^ fp.length
    let expo : Int :=
      match l3 with
      | 'e' :: t =>
        let se : Int × List Char :=
          match t with
          | '-' :: u => (-1, u)
          | '+' :: u => (1, u)
          | _ => (1, t)
        let ed := se.2.takeWhile Char.isDigit
        if ed = [] then 0 else se.1 * (digitsToNat ed : Int)
      | 'E' :: t =>
        let se : Int × List Char :=
          match t with
          | '-' :: u => (-1, u)
          | '+' :: u => (1, u)
          | _ => (1, t)
        let ed := se.2.takeWhile Char.isDigit
        if ed = [] then 0 else se.1 * (digitsToNat ed : Int)
      | _ => 0
    let scaled : ℚ :=
      if 0 ≤ expo then mant * (10 : ℚ) ^ expo.toNat else mant / (10 : ℚ) ^ (-expo).toNat
    some (sign * scaled)

/-- `parseInt` with no radix argument: leading whitespace, optional sign,
`0x`/`0X` hex prefix or leading decimal digits; `none` models `NaN`. -/
def jsParseInt (s : String) : Option Int :=
  let l := s.data.dropWhile jsIsSpace
  let signAndRest : Int × List Char :=
    match l with
    | '-' :: t => (-1, t)
    | '+' :: t => (1, t)
    | _ => (1, l)
  let sign := signAndRest.1
  let l1 := signAndRest.2
  match l1 with
  | '0' :: 'x' :: t =>
    let ds := t.takeWhile (fun c => c.isDigit ∨ ('a' ≤ c ∧ c ≤ 'f') ∨ ('A' ≤ c ∧ c ≤ 'F'))
    if ds = [] then none
    else some (sign * (ds.foldl (fun a c =>
      a * 16 + (if c.isDigit then (c.toNat - 48 : Int)
                else if 'a' ≤ c then (c.toNat - 87 : Int) else (c.toNat - 55 : Int))) 0))
  | '0' :: 'X' :: t =>
    let ds := t.takeWhile (fun c => c.isDigit ∨ ('a' ≤ c ∧ c ≤ 'f') ∨ ('A' ≤ c ∧ c ≤ 'F'))
    if ds = [] then none
    else some (sign * (ds.foldl (fun a c =>
      a * 16 + (if c.isDigit then (c.toNat - 48 : Int)
                else if 'a' ≤ c then (c.toNat - 87 : Int) else (c.toNat - 55 : Int))) 0))
  | _ =>
    let ds := l1.takeWhile Char.isDigit
    if ds = [] then none else some (sign * (digitsToNat ds : Int))

/-- Lower-case an ASCII string, modelling `String.prototype.toLowerCase`. -/
def strToLower (s : String) : String := String.mk (s.data.map Char.toLower)

/-- Whether `needle` occurs as a contiguous sublist of `hay`. -/
def listInfixOf (needle : List Char) : List Char → Bool
  | [] => needle.isEmpty
  | c :: t => needle.isPrefixOf (c :: t) || listInfixOf needle t

/-- `a.includes(b)`: `b` occurs as a contiguous substring of `a`. -/
def strIncludes (a b : String) : Bool := listInfixOf b.data a.data

/-- Decimal formatting with `dp` fraction digits, modelling `Number.toFixed`
(round half toward positive infinity; the binary-double artefacts of the real
`toFixed` are not modelled — no claim depends on message text). -/
def jsToFixed (dp : Nat) (x : ℚ) : String :=
  let n := jsRound (x * (10 : ℚ) ^ dp)
  let a := n.natAbs
  let ip := a / 10 ^ dp
  let fp := a % 10 ^ dp
  let fpStr := toString fp
  let pad := String.mk (List.replicate (dp - fpStr.length) '0') ++ fpStr
  (if n < 0 then "-" else "") ++ toString ip ++ (if dp = 0 then "" else "." ++ pad)

/-- Decimal-looking rendering of a rational, standing in for JavaScript
number-to-string interpolation inside template literals. -/
def qToString (x : ℚ) : String :=
  if x.den = 1 then toString x.num else jsToFixed 2 x

/-! ### Fraud detection service — data model
(src/src/services/fraudDetectionService.ts) -/

/-- The `type` union of `FraudIndicator`. -/
inductive IndicatorType where
  | critical
  | warning
  | info
  | metadataTampering
  | visualInconsistency
  | textLayerMismatch
deriving DecidableEq, Repr

/-- `FraudIndicator` from fraudDetectionService.ts. -/
structure FraudIndicator where
  type : IndicatorType
  field : String
  message : String
  severity : Int
deriving DecidableEq, Repr

/-- The `type` union of the document-analysis suspicious indicators
(documentAnalysisService.ts). -/
inductive SuspType where
  | metadataTampering
  | visualInconsistency
  | textLayerMismatch
deriving DecidableEq, Repr

/-- A suspicious indicator produced by `DocumentAnalysisService`. -/
structure SuspIndicator where
  type : SuspType
  field : String
  message : String
  severity : Int
deriving DecidableEq, Repr

/-- Inclusion of the document-analysis indicator type union into the fraud
indicator type union (the TypeScript unions share these three tags). -/
def SuspType.toIndicatorType : SuspType → IndicatorType
  | .metadataTampering => .metadataTampering
  | .visualInconsistency => .visualInconsistency
  | .textLayerMismatch => .textLayerMismatch

/-- A document-analysis indicator viewed as a `FraudIndicator` (this is what
`indicators.push(...documentAnalysis.suspiciousIndicators)` does). -/
def SuspIndicator.toFraud (s : SuspIndicator) : FraudIndicator :=
  { type := s.type.toIndicatorType, field := s.field, message := s.message,
    severity := s.severity }

/-- `riskLevel` values. -/
inductive RiskLevel where
  | low
  | medium
  | high
deriving DecidableEq, Repr

/-- `FraudAnalysis` returned by `analyzeInvoice`. -/
structure FraudAnalysis where
  fraudScore : ℚ
  fraudIndicators : List FraudIndicator
  riskLevel : RiskLevel
deriving DecidableEq, Repr

/-- The flat field bag consulted by the fraud scoring rules (the scoring code
is duck-typed over `any`; these are exactly the keys it reads).  A missing or
`undefined` field is modelled as the empty string, which has the same
truthiness as `undefined` in every guard of the scoring code. -/
structure FieldSet where
  totalCost : String := ""
  deposit : String := ""
  tradeInValue : String := ""
  balanceOwing : String := ""
  gst : String := ""
  vin : String := ""
  abn : String := ""
  invoiceDate : String := ""
  vehicleYear : String := ""
  odometer : String := ""
  phone : String := ""
  email : String := ""
  postcode : String := ""
deriving DecidableEq, Repr

/-- The ambient JavaScript clock and `Date` behaviour used by
`validateBusinessLogic`: `new Date()` in epoch milliseconds, `getFullYear()`,
the constant `new Date(2010, 0, 1)` in epoch milliseconds, and the result of
`new Date(string).getTime()` (`none` models an invalid date, whose comparisons
are all false). -/
structure Env where
  nowMs : Int
  currentYear : Int
  jan2010Ms : Int
  parseDate : String → Option Int

/-! ### Fraud detection service — rules -/

/-- `parseAmount`: falsy values give `null`; otherwise strip `$`, `,` and
whitespace and `parseFloat`; `NaN` gives `null`. -/
def parseAmount (value : String) : Option ℚ :=
  if value = "" then none
  else jsParseFloat (String.mk (value.data.filter
    (fun c => ¬(c = '$' ∨ c = ',' ∨ jsIsSpace c))))

/-- JavaScript numeric coalescing `x || 0` applied to a parse result. -/
def numOr0 (o : Option ℚ) : ℚ := o.getD 0

/-- Numeric truthiness of a parse result (`null` and `0` are falsy). -/
def numTruthy (o : Option ℚ) : Prop := numOr0 o ≠ 0

instance (o : Option ℚ) : Decidable (numTruthy o) := by
  unfold numTruthy; infer_instance

/-- Balance-owing arithmetic check of `validateMath`. -/
def mathBalancePart (d : FieldSet) : List FraudIndicator :=
  let totalCost := parseAmount d.totalCost
  let deposit := parseAmount d.deposit
  let tradeInValue := parseAmount d.tradeInValue
  let balanceOwing := parseAmount d.balanceOwing
  if numTruthy totalCost ∧ (numTruthy deposit ∨ numTruthy tradeInValue ∨ numTruthy balanceOwing) then
    let expectedBalance := numOr0 totalCost - numOr0 deposit - numOr0 tradeInValue
    if numTruthy balanceOwing ∧ |numOr0 balanceOwing - expectedBalance| > 1 then
      [{ type := .critical, field := "balanceOwing",
         message := "Balance calculation error: Expected " ++ jsToFixed 2 expectedBalance ++
           ", found " ++ jsToFixed 2 (numOr0 balanceOwing),
         severity := 10 }]
    else []
  else []

/-- GST-rate check of `validateMath`. -/
def mathGstPart (d : FieldSet) : List FraudIndicator :=
  let totalCost := parseAmount d.totalCost
  let gst := parseAmount d.gst
  if numTruthy gst ∧ numTruthy totalCost then
    let gstPercentage := numOr0 gst / numOr0 totalCost * 100
    if gstPercentage < 8 ∨ gstPercentage > 12 then
      [{ type := .warning, field := "gst",
         message := "Unusual GST rate: " ++ jsToFixed 1 gstPercentage ++ "% (expected ~10%)",
         severity := 6 }]
    else []
  else []

/-- Price-plausibility check of `validateMath`. -/
def mathRangePart (d : FieldSet) : List FraudIndicator :=
  let totalCost := parseAmount d.totalCost
  if numTruthy totalCost ∧ (numOr0 totalCost < 1000 ∨ numOr0 totalCost > 500000) then
    [{ type := .warning, field := "totalCost",
       message := "Vehicle price outside typical range", severity := 4 }]
  else []

/-- `validateMath` (the three checks push in source order). -/
def validateMath (d : FieldSet) : List FraudIndicator :=
  mathBalancePart d ++ mathGstPart d ++ mathRangePart d

/-- VIN length check of `validateBusinessLogic`. -/
def bizVinPart (d : FieldSet) : List FraudIndicator :=
  if d.vin ≠ "" ∧ d.vin.length ≠ 17 then
    [{ type := .critical, field := "vin",
       message := "Invalid VIN length (should be 17 characters)", severity := 9 }]
  else []

/-- ABN format check of `validateBusinessLogic`. -/
def bizAbnPart (d : FieldSet) : List FraudIndicator :=
  let stripped := (d.abn.data.filter (fun c => ¬ jsIsSpace c))
  if d.abn ≠ "" ∧ ¬(stripped.length = 11 ∧ stripped.all Char.isDigit) then
    [{ type := .warning, field := "abn",
       message := "ABN format appears invalid", severity := 5 }]
  else []

/-- Invoice-date checks of `validateBusinessLogic` (`new Date(s)` modelled by
`env.parseDate`; an invalid date compares false on both sides). -/
def bizDatePart (d : FieldSet) (env : Env) : List FraudIndicator :=
  if d.invoiceDate ≠ "" then
    match env.parseDate d.invoiceDate with
    | some t =>
      (if t > env.nowMs then
        [{ type := .critical, field := "invoiceDate",
           message := "Invoice date is in the future", severity := 8 }]
      else []) ++
      (if t < env.jan2010Ms then
        [{ type := .warning, field := "invoiceDate",
           message := "Very old invoice date", severity := 3 }]
      else [])
    | none => []
  else []

/-- Vehicle-year range check of `validateBusinessLogic`. -/
def bizYearPart (d : FieldSet) (env : Env) : List FraudIndicator :=
  match jsParseInt d.vehicleYear with
  | some y =>
    if y ≠ 0 ∧ (y < 1990 ∨ y > env.currentYear + 1) then
      [{ type := .warning, field := "vehicleYear",
         message := "Vehicle year outside expected range", severity := 4 }]
    else []
  | none => []

/-- Odometer plausibility checks of `validateBusinessLogic`. -/
def bizOdoPart (d : FieldSet) (env : Env) : List FraudIndicator :=
  let odometer := parseAmount d.odometer
  match jsParseInt d.vehicleYear with
  | some y =>
    if numTruthy odometer ∧ y ≠ 0 then
      let vehicleAge := env.currentYear - y
      let expectedMaxKm := vehicleAge * 25000
      (if numOr0 odometer > (expectedMaxKm : ℚ) * 2 then
        [{ type := .warning, field := "odometer",
           message := "Unusually high odometer reading for vehicle age", severity := 5 }]
      else []) ++
      (if numOr0 odometer < 100 ∧ vehicleAge > 1 then
        [{ type := .warning, field := "odometer",
           message := "Suspiciously low odometer reading", severity := 6 }]
      else [])
    else []
  | none => []

/-- `validateBusinessLogic` (checks push in source order). -/
def validateBusinessLogic (d : FieldSet) (env : Env) : List FraudIndicator :=
  bizVinPart d ++ bizAbnPart d ++ bizDatePart d env ++ bizYearPart d env ++ bizOdoPart d env

/-- The phone regex test `^[\d\s\+\(\)\-]{8,}$`. -/
def phoneOk (s : String) : Prop :=
  s.length ≥ 8 ∧ s.data.all (fun c => c.isDigit ∨ jsIsSpace c ∨ c = '+' ∨ c = '(' ∨ c = ')' ∨ c = '-')

instance (s : String) : Decidable (phoneOk s) := by
  unfold phoneOk; infer_instance

/-- The email regex test `^[^\s@]+@[^\s@]+\.[^\s@]+$`, unfolded: exactly one
`@`, neither first nor last, no whitespace anywhere, and the part after the
`@` contains a dot that is neither its first nor its last character. -/
def emailOk (s : String) : Prop :=
  let l := s.data
  (l.filter (fun c => c = '@')).length = 1 ∧
  l.all (fun c => ¬ jsIsSpace c) ∧
  (l.takeWhile (fun c => c ≠ '@')) ≠ [] ∧
  (((l.dropWhile (fun c => c ≠ '@')).drop 1) ≠ [] ∧
   ((((l.dropWhile (fun c => c ≠ '@')).drop 1).drop 1).dropLast).contains '.')

instance (s : String) : Decidable (emailOk s) := by
  unfold emailOk; infer_instance

/-- The postcode regex test `^\d{4}$`. -/
def postcodeOk (s : String) : Prop :=
  s.length = 4 ∧ s.data.all Char.isDigit

instance (s : String) : Decidable (postcodeOk s) := by
  unfold postcodeOk; infer_instance

/-- Phone format check of `validateFormats`. -/
def fmtPhonePart (d : FieldSet) : List FraudIndicator :=
  if d.phone ≠ "" ∧ ¬ phoneOk d.phone then
    [{ type := .info, field := "phone",
       message := "Phone number format may be unusual", severity := 2 }]
  else []

/-- Email format check of `validateFormats`. -/
def fmtEmailPart (d : FieldSet) : List FraudIndicator :=
  if d.email ≠ "" ∧ ¬ emailOk d.email then
    [{ type := .warning, field := "email",
       message := "Email format appears invalid", severity := 3 }]
  else []

/-- Postcode format check of `validateFormats`. -/
def fmtPostcodePart (d : FieldSet) : List FraudIndicator :=
  if d.postcode ≠ "" ∧ ¬ postcodeOk d.postcode then
    [{ type := .info, field := "postcode",
       message := "Postcode format may be invalid (should be 4 digits)", severity := 2 }]
  else []

/-- `validateFormats` (checks push in source order). -/
def validateFormats (d : FieldSet) : List FraudIndicator :=
  fmtPhonePart d ++ fmtEmailPart d ++ fmtPostcodePart d

/-- The low-OCR-confidence indicator of `analyzeInvoice`. -/
def confPart (confidence : Option ℚ) : List FraudIndicator :=
  match confidence with
  | some c =>
    if c < 70 then
      [{ type := .warning, field := "general",
         message := "Low OCR confidence (" ++ qToString c ++
           "%) - document quality may be poor or tampered",
         severity := if c < 50 then 8 else 5 }]
    else []
  | none => []

/-- The flat score subtraction of the low-OCR-confidence branch. -/
def confPenalty (confidence : Option ℚ) : ℚ :=
  match confidence with
  | some c => if c < 70 then (if c < 50 then 16 else 10) else 0
  | none => 0

/-- `issues.reduce((sum, issue) => sum + issue.severity * w, 0)`. -/
def weightedSeveritySum (w : ℚ) (l : List FraudIndicator) : ℚ :=
  l.foldl (fun s i => s + (i.severity : ℚ) * w) 0

/-- `FraudDetectionService.analyzeInvoice`.  `confidence` is the optional OCR
confidence; `documentAnalysis` is the optional `suspiciousIndicators` list of
a document analysis result; `env` supplies the clock and `Date` parsing. -/
def analyzeInvoice (d : FieldSet) (confidence : Option ℚ)
    (documentAnalysis : Option (List SuspIndicator)) (env : Env) : FraudAnalysis :=
  let mathIssues := validateMath d
  let businessIssues := validateBusinessLogic d env
  let confIssues := confPart confidence
  let formatIssues := validateFormats d
  let docIssues := (documentAnalysis.getD []).map SuspIndicator.toFraud
  let baseScore : ℚ :=
    100 - weightedSeveritySum 2 mathIssues
        - weightedSeveritySum 1.5 businessIssues
        - confPenalty confidence
        - weightedSeveritySum 1 formatIssues
        - weightedSeveritySum 1.2 docIssues
  let fraudScore := max 0 (min 100 baseScore)
  let riskLevel : RiskLevel :=
    if fraudScore ≥ 80 then .low else if fraudScore ≥ 50 then .medium else .high
  { fraudScore := fraudScore,
    fraudIndicators := mathIssues ++ businessIssues ++ confIssues ++ formatIssues ++ docIssues,
    riskLevel := riskLevel }

/-! ### OCR service (src/src/services/ocrService.ts) -/

/-- The effective image-processing configuration of one
`extractTextFromFile(file, usePreprocessing, fastMode)` call: the render scale
chosen by `convertPdfToImage` and whether `preprocessImage` runs
(`usePreprocessing && !fastMode`). -/
structure OcrConfig where
  scale : ℚ
  preprocess : Bool
deriving DecidableEq, Repr

/-- The configuration computed from the two boolean arguments of
`extractTextFromFile`. -/
def modeConfig (usePreprocessing fastMode : Bool) : OcrConfig :=
  { scale := if fastMode then 1.5 else 2.5, preprocess := usePreprocessing && !fastMode }

/-- `OCRService.extractTextFromFile` with the OCR engine abstracted as an
oracle from the effective configuration to the recognized text. -/
def extractTextFromFile (recognize : OcrConfig → String)
    (usePreprocessing fastMode : Bool) : String :=
  recognize (modeConfig usePreprocessing fastMode)

/-- The two-tier text-extraction escalation of `OCRService.processInvoice`:
fast mode first, thorough mode when the fast result is shorter than 100
characters. -/
def processInvoiceText (recognize : OcrConfig → String) : String :=
  let text := extractTextFromFile recognize false true
  if text.length < 100 then extractTextFromFile recognize true false else text

/-- Case-insensitive fixed-prefix match (the pattern is given lower case). -/
def startsWithCI (l : List Char) (pat : List Char) : Bool :=
  (l.take pat.length).map Char.toLower = pat

/-- One attempt of the VIN regex `(?:VIN|Chassis)[:\s]*([A-Z0-9]{17})` (with
the `i` flag) anchored at the head of `l`: match the label, greedily skip
`:`/whitespace, then require 17 alphanumeric characters.  The skip class and
the capture class are disjoint, so the regex engine's backtracking over
`[:\s]*` can never produce a different outcome. -/
def matchVinAt (l : List Char) : Option (List Char) :=
  let afterLabel : Option (List Char) :=
    if startsWithCI l ['v', 'i', 'n'] then some (l.drop 3)
    else if startsWithCI l ['c', 'h', 'a', 's', 's', 'i', 's'] then some (l.drop 7)
    else none
  match afterLabel with
  | none => none
  | some rest =>
    let afterSep := rest.dropWhile (fun c => c = ':' ∨ jsIsSpace c)
    let candidate := afterSep.take 17
    if candidate.length = 17 ∧ candidate.all Char.isAlphanum then some candidate else none

/-- Leftmost match search of the VIN regex over the whole text. -/
def vinScan : List Char → Option (List Char)
  | [] => none
  | c :: t =>
    match matchVinAt (c :: t) with
    | some v => some v
    | none => vinScan t

/-- The VIN extraction rule of `OCRService.parseAustralianInvoice`
(ocrService.ts lines 220-224): the value of `data.vin`, `none` when the
pattern does not match.  (The other field rules of the parser never write the
`vin` key, so this is the entire `vin` behaviour of the fallback parser.) -/
def parseAustralianInvoiceVin (text : String) : Option String :=
  (vinScan text.data).map String.mk

/-! ### Document analysis service (documentAnalysisService.ts, src/unnamed/part_000) -/

/-- `DocumentMetadata` after `processPdfMetadata` normalisation.  Date values
are the externally parsed `new Date(...)` timestamps in epoch milliseconds. -/
structure DocumentMetadata where
  creationDate : Option Int := none
  modificationDate : Option Int := none
  creator : Option String := none
  producer : Option String := none
  title : Option String := none
  subject : Option String := none
  author : Option String := none
  keywords : Option String := none
deriving DecidableEq, Repr

/-- The raw `info` object of `pdf.getMetadata()`; string fields are `none`
when absent, date fields carry the already-parsed timestamp. -/
structure PdfInfo where
  CreationDate : Option Int := none
  ModDate : Option Int := none
  Creator : Option String := none
  Producer : Option String := none
  Title : Option String := none
  Subject : Option String := none
  Author : Option String := none
  Keywords : Option String := none
deriving DecidableEq, Repr

/-- One item of `page.getTextContent().items`; `fontName = ""` models a
missing font name (falsy), `tx`/`ty` are `transform[4]`/`transform[5]`. -/
structure TextItem where
  str : String
  fontName : String
  height : ℚ
  width : ℚ
  tx : ℚ
  ty : ℚ
deriving DecidableEq, Repr

/-- `FontAnalysis` accumulated per `fontName-roundedHeight` key. -/
structure FontAnalysis where
  fontName : String
  fontSize : Int
  count : Nat
  positions : List (ℚ × ℚ × ℚ × ℚ)
deriving DecidableEq, Repr

/-- `DocumentAnalysisResult`. -/
structure DocumentAnalysisResult where
  metadata : DocumentMetadata
  hasTextLayer : Bool
  textLayerText : Option String
  fontAnalysis : List FontAnalysis
  suspiciousIndicators : List SuspIndicator
deriving DecidableEq, Repr

/-- The initial `result` value of `analyzeDocument`. -/
def emptyAnalysisResult : DocumentAnalysisResult :=
  { metadata := {}, hasTextLayer := false, textLayerText := none,
    fontAnalysis := [], suspiciousIndicators := [] }

/-- The first page of a PDF, with each pdf.js call that can reject modelled
as an `Except`. -/
structure PageData where
  textItems : Except Unit (List TextItem)
  annotations : Except Unit Nat
deriving Repr

/-- An opened PDF document. -/
structure PdfData where
  info : Except Unit PdfInfo
  page1 : Except Unit PageData
deriving Repr

/-- A file handed to `analyzeDocument`: MIME type, name and filesystem
modification time, plus the result of trying to open it as a PDF
(`arrayBuffer`/`getDocument`, which reject on a corrupt or protected file). -/
structure DocFile where
  mimeType : String
  name : String
  lastModified : Int
  pdf : Except Unit PdfData
deriving Repr

/-- `isPdfFile` (same test in ocrService.ts and documentAnalysisService.ts). -/
def isPdfFile (f : DocFile) : Bool :=
  f.mimeType = "application/pdf" || (strToLower f.name).endsWith ".pdf"

/-- `processPdfMetadata`: `info.X || undefined` (the empty string collapses
to undefined). -/
def nonEmptyOpt (o : Option String) : Option String :=
  match o with
  | some s => if s = "" then none else some s
  | none => none

/-- `processPdfMetadata`. -/
def processPdfMetadata (info : PdfInfo) : DocumentMetadata :=
  { creationDate := info.CreationDate, modificationDate := info.ModDate,
    creator := nonEmptyOpt info.Creator, producer := nonEmptyOpt info.Producer,
    title := nonEmptyOpt info.Title, subject := nonEmptyOpt info.Subject,
    author := nonEmptyOpt info.Author, keywords := nonEmptyOpt info.Keywords }

/-- The fixed list of suspicious creator/producer signatures. -/
def SUSPICIOUS_SOFTWARE : List String :=
  ["pdf editor", "ilovepdf", "smallpdf", "sejda", "pdftk", "foxit phantom",
   "adobe acrobat dc", "nitro pro", "pdfcreator", "cutepdf", "bullzip",
   "pdf24", "pdf architect", "wondershare", "pdfelement", "docusign",
   "hellosign", "pandadoc", "adobe sign"]

/-- The creation/modification timestamp rules of `analyzeMetadataForTampering`
(both live inside the `creationDate && modificationDate` guard). -/
def metaDateIndicators (m : DocumentMetadata) (now : Int) : List SuspIndicator :=
  match m.creationDate, m.modificationDate with
  | some c, some md =>
    let timeDiff := md - c
    (if timeDiff > 24 * 60 * 60 * 1000 then
      [{ type := .metadataTampering, field := "modification-date",
         message := "Document was modified " ++
           toString (jsRound ((timeDiff : ℚ) / (24 * 60 * 60 * 1000))) ++
           " days after creation",
         severity := 6 }]
    else []) ++
    (if md > now then
      [{ type := .metadataTampering, field := "modification-date",
         message := "Document modification date is in the future", severity := 8 }]
    else [])
  | _, _ => []

/-- The software-signature rule of `analyzeMetadataForTampering` (`creator`
then `producer`, skipping falsy values; severity 7 when the matched list
entry contains "editor" or "sign"). -/
def metaSoftwareIndicators (m : DocumentMetadata) : List SuspIndicator :=
  (([m.creator, m.producer].filterMap id).filter (fun s => s ≠ "")).flatMap
    (fun software =>
      match SUSPICIOUS_SOFTWARE.find? (fun sus => strIncludes (strToLower software) sus) with
      | some sm =>
        [{ type := .metadataTampering, field := "software-signature",
           message := "Document created/modified with " ++ software ++
             " - commonly used for editing PDFs",
           severity := if strIncludes sm "editor" || strIncludes sm "sign" then 7 else 5 }]
      | none => [])

/-- The generic-title patterns. -/
def suspiciousTitlePatterns : List String :=
  ["untitled", "document", "invoice", "receipt", "temp", "test"]

/-- `analyzeMetadataForTampering` (rules push in source order). -/
def analyzeMetadataForTampering (m : DocumentMetadata) (now : Int) : List SuspIndicator :=
  metaDateIndicators m now ++
  metaSoftwareIndicators m ++
  (if m.creationDate = none ∧ m.modificationDate = none then
    [{ type := .metadataTampering, field := "missing-metadata",
       message := "Document has no creation or modification timestamps", severity := 4 }]
  else []) ++
  (match m.title with
   | some t =>
     if t ≠ "" ∧ suspiciousTitlePatterns.any (fun p => strIncludes (strToLower t) p) then
       [{ type := .metadataTampering, field := "document-title",
          message := "Generic document title: \"" ++ t ++ "\"", severity := 3 }]
     else []
   | none => [])

/-- Insert a text item into the insertion-ordered font map of `analyzeFonts`. -/
def fontMapInsert (l : List (String × FontAnalysis)) (key : String) (item : TextItem) :
    List (String × FontAnalysis) :=
  match l with
  | [] =>
    [(key, { fontName := item.fontName, fontSize := jsRound item.height, count := 1,
             positions := [(item.tx, item.ty, item.width, item.height)] })]
  | (k, fa) :: t =>
    if k = key then
      (k, { fa with
            count := fa.count + 1,
            positions := fa.positions ++ [(item.tx, item.ty, item.width, item.height)] }) :: t
    else (k, fa) :: fontMapInsert t key item

/-- `analyzeFonts`: group items by `fontName-roundedHeight`, skipping items
with a falsy font name; a JavaScript `Map` iterates in insertion order. -/
def analyzeFonts (items : List TextItem) : List FontAnalysis :=
  (items.foldl
    (fun m it =>
      if it.fontName = "" then m
      else fontMapInsert m (it.fontName ++ "-" ++ toString (jsRound it.height)) it)
    []).map Prod.snd

/-- First-occurrence deduplication (a JavaScript `Set` iterates in insertion
order). -/
def dedupStrings (l : List String) : List String :=
  l.foldl (fun acc s => if s ∈ acc then acc else acc ++ [s]) []

/-- `calculateVariance`. -/
def calculateVariance (ns : List ℚ) : ℚ :=
  let mean := ns.sum / ns.length
  ((ns.map (fun n => (n - mean) ^ 2)).sum) / ns.length

/-- The allow-list of common fonts. -/
def commonFonts : List String := ["times", "arial", "helvetica", "calibri", "georgia"]

/-- `analyzeFontConsistency` (rules push in source order). -/
def analyzeFontConsistency (fa : List FontAnalysis) : List SuspIndicator :=
  let uniqueFonts := dedupStrings (fa.map FontAnalysis.fontName)
  (if uniqueFonts.length > 5 then
    [{ type := .visualInconsistency, field := "font-variety",
       message := "Document uses " ++ toString uniqueFonts.length ++
         " different fonts - may indicate editing",
       severity := 5 }]
  else []) ++
  (let uncommonFonts := uniqueFonts.filter
     (fun font => ¬ commonFonts.any (fun c => strIncludes (strToLower font) c))
   if uncommonFonts ≠ [] then
     [{ type := .visualInconsistency, field := "font-type",
        message := "Unusual fonts detected: " ++ String.intercalate ", " (uncommonFonts.take 3),
        severity := 4 }]
   else []) ++
  fa.flatMap (fun font =>
    if font.positions.length > 10 then
      if calculateVariance (font.positions.map (fun p => p.2.1)) > 100 then
        [{ type := .visualInconsistency, field := "text-alignment",
           message := "Inconsistent text alignment detected for " ++ font.fontName,
           severity := 4 }]
      else []
    else [])

/-- `analyzePdfDocument`, sequentially threading the mutable `result` through
each pdf.js call; the second component records whether some call threw (in
which case `result` keeps everything pushed before the failure). -/
def analyzePdfDocument (f : DocFile) (now : Int) : DocumentAnalysisResult × Bool :=
  match f.pdf with
  | .error _ => (emptyAnalysisResult, true)
  | .ok pdfDoc =>
    match pdfDoc.info with
    | .error _ => (emptyAnalysisResult, true)
    | .ok info =>
      let md := processPdfMetadata info
      let r1 : DocumentAnalysisResult :=
        { emptyAnalysisResult with
          metadata := md,
          suspiciousIndicators := analyzeMetadataForTampering md now }
      match pdfDoc.page1 with
      | .error _ => (r1, true)
      | .ok page =>
        match page.textItems with
        | .error _ => (r1, true)
        | .ok items =>
          let r2 :=
            if items.length > 0 then
              let fa := analyzeFonts items
              { r1 with
                hasTextLayer := true,
                textLayerText := some (String.intercalate " " (items.map TextItem.str)),
                fontAnalysis := fa,
                suspiciousIndicators := r1.suspiciousIndicators ++ analyzeFontConsistency fa }
            else r1
          match page.annotations with
          | .error _ => (r2, true)
          | .ok n =>
            if n > 0 then
              ({ r2 with suspiciousIndicators := r2.suspiciousIndicators ++
                  [{ type := .visualInconsistency, field := "document-structure",
                     message := "Document contains " ++ toString n ++
                       " annotation(s) - may indicate editing",
                     severity := 3 }] }, false)
            else (r2, false)

/-- `analyzeImageDocument` (no pdf.js involved; it cannot throw). -/
def analyzeImageDocument (f : DocFile) (now : Int) : DocumentAnalysisResult :=
  let md : DocumentMetadata :=
    { creationDate := some f.lastModified, modificationDate := some f.lastModified }
  let fileAge := now - f.lastModified
  { emptyAnalysisResult with
    metadata := md,
    suspiciousIndicators :=
      if fileAge < 60000 then
        [{ type := .metadataTampering, field := "file-timestamp",
           message := "File was modified very recently - may indicate recent editing",
           severity := 5 }]
      else [] }

/-- The generic indicator appended by the `catch` block of `analyzeDocument`. -/
def genericFailureIndicator : SuspIndicator :=
  { type := .metadataTampering, field := "general",
    message := "Could not analyze document metadata - file may be corrupted or protected",
    severity := 4 }

/-- The body of `analyzeDocument` before the `catch`: the partially filled
result plus whether an exception escaped. -/
def analyzeDocumentCore (f : DocFile) (now : Int) : DocumentAnalysisResult × Bool :=
  if isPdfFile f then analyzePdfDocument f now else (analyzeImageDocument f now, false)

/-- `DocumentAnalysisService.analyzeDocument`: never propagates an error;
on failure the generic severity-4 indicator is pushed onto whatever was
collected before the failure. -/
def analyzeDocument (f : DocFile) (now : Int) : DocumentAnalysisResult :=
  let core := analyzeDocumentCore f now
  if core.2 then
    { core.1 with suspiciousIndicators := core.1.suspiciousIndicators ++ [genericFailureIndicator] }
  else core.1

/-! ### Text similarity (documentAnalysisService.ts lines 354-384) -/

/-- The Levenshtein dynamic-programming matrix of `levenshteinDistance`:
`levMat s1 s2 j i` is `matrix[j][i]`, with `matrix[0][i] = i`,
`matrix[j][0] = j` and the usual deletion/insertion/substitution minimum. -/
def levMat (s1 s2 : List Char) : Nat → Nat → Nat
  | 0, i => i
  | j + 1, 0 => j + 1
  | j + 1, i + 1 =>
    let indicator := if s1.getD i ' ' = s2.getD j ' ' then 0 else 1
    min (levMat s1 s2 (j + 1) i + 1)
      (min (levMat s1 s2 j (i + 1) + 1) (levMat s1 s2 j i + indicator))

/-- `levenshteinDistance str1 str2` returns `matrix[str2.length][str1.length]`. -/
def levenshteinDistance (str1 str2 : List Char) : Nat :=
  levMat str1 str2 str2.length str1.length

/-- `calculateTextSimilarity`:
`Math.round(((longer.length - editDistance) / longer.length) * 100)`,
computed on the longer/shorter arrangement of the two inputs. -/
def calculateTextSimilarity (text1 text2 : List Char) : Int :=
  let longer := if text1.length > text2.length then text1 else text2
  let shorter := if text1.length > text2.length then text2 else text1
  if longer.length = 0 then 100
  else
    let editDistance := levenshteinDistance longer shorter
    jsRound ((((longer.length : ℚ) - (editDistance : ℚ)) / (longer.length : ℚ)) * 100)

/-! ### Page integration (src/src/pages/Index.tsx) -/

/-- A `Partial<InvoiceData>` update over the scored field vocabulary. -/
structure FieldPatch where
  totalCost : Option String := none
  deposit : Option String := none
  tradeInValue : Option String := none
  balanceOwing : Option String := none
  gst : Option String := none
  vin : Option String := none
  abn : Option String := none
  invoiceDate : Option String := none
  vehicleYear : Option String := none
  odometer : Option String := none
  phone : Option String := none
  email : Option String := none
  postcode : Option String := none
deriving DecidableEq, Repr

/-- The object-spread merge `{ ...base, ...patch }`. -/
def mergeFields (base : FieldSet) (p : FieldPatch) : FieldSet :=
  { totalCost := p.totalCost.getD base.totalCost,
    deposit := p.deposit.getD base.deposit,
    tradeInValue := p.tradeInValue.getD base.tradeInValue,
    balanceOwing := p.balanceOwing.getD base.balanceOwing,
    gst := p.gst.getD base.gst,
    vin := p.vin.getD base.vin,
    abn := p.abn.getD base.abn,
    invoiceDate := p.invoiceDate.getD base.invoiceDate,
    vehicleYear := p.vehicleYear.getD base.vehicleYear,
    odometer := p.odometer.getD base.odometer,
    phone := p.phone.getD base.phone,
    email := p.email.getD base.email,
    postcode := p.postcode.getD base.postcode }

/-- A `Partial<ExtractedInvoiceData>` viewed through the scored field
vocabulary, with `undefined` keys read as absent (empty string). -/
def patchToFieldSet (p : FieldPatch) : FieldSet := mergeFields {} p

/-- The relevant component state of the `Index` page. -/
structure SessionState where
  fields : FieldSet
  confidence : ℚ
  fraudScore : ℚ
  fraudIndicators : List FraudIndicator
  riskLevel : RiskLevel
deriving DecidableEq, Repr

/-- The result of `OCRService.processInvoice` as consumed by
`handleFileUpload`. -/
structure ProcessResult where
  data : FieldPatch
  confidence : ℚ
  documentAnalysis : Option (List SuspIndicator)

/-- The state update performed by `handleFileUpload` after processing
succeeds: fraud analysis over the extracted data with the extraction
confidence and the document analysis. -/
def handleFileUpload (prev : FieldSet) (result : ProcessResult) (env : Env) : SessionState :=
  let fraudAnalysis :=
    analyzeInvoice (patchToFieldSet result.data) (some result.confidence)
      result.documentAnalysis env
  { fields := mergeFields prev result.data,
    confidence := result.confidence,
    fraudScore := fraudAnalysis.fraudScore,
    fraudIndicators := fraudAnalysis.fraudIndicators,
    riskLevel := fraudAnalysis.riskLevel }

/-- `handleDataUpdate`: re-runs fraud detection on the merged data with the
stored confidence, passing no document analysis. -/
def handleDataUpdate (s : SessionState) (updatedData : FieldPatch) (env : Env) : SessionState :=
  let newData := mergeFields s.fields updatedData
  let fraudAnalysis := analyzeInvoice newData (some s.confidence) none env
  { fields := newData,
    confidence := s.confidence,
    fraudScore := fraudAnalysis.fraudScore,
    fraudIndicators := fraudAnalysis.fraudIndicators,
    riskLevel := fraudAnalysis.riskLevel }

/-! ### Concrete fixtures used by witnesses and counterexamples -/

/-- A sample ambient environment: a fixed clock (2025), the local-time epoch
value of `new Date(2010, 0, 1)` for an Australian timezone, and a `Date`
parser that treats every string as invalid (no witness below depends on date
parsing). -/
def sampleEnv : Env :=
  { nowMs := 1760000000000, currentYear := 2025, jan2010Ms := 1262264400000,
    parseDate := fun _ => none }

/-- A representative integrity indicator produced by document analysis. -/
def sampleSuspIndicator : SuspIndicator :=
  { type := .metadataTampering, field := "missing-metadata",
    message := "Document has no creation or modification timestamps", severity := 4 }

/-- The session state right after an upload whose document analysis produced
`sampleSuspIndicator` (clean fields, confidence 80). -/
def sampleUploadedState : SessionState :=
  handleFileUpload {}
    { data := {},
      confidence := 80,
      documentAnalysis := some [sampleSuspIndicator] } sampleEnv

/-- A session state holding an invalid VIN (used to exhibit a nonempty
re-scored indicator list). -/
def sampleVinState : SessionState :=
  { fields := { vin := "ABC" }, confidence := 80, fraudScore := 100,
    fraudIndicators := [], riskLevel := .low }

/-- The critical VIN-length indicator of `validateBusinessLogic`. -/
def vinLengthIndicator : FraudIndicator :=
  { type := .critical, field := "vin",
    message := "Invalid VIN length (should be 17 characters)", severity := 9 }

/-- A corrupt PDF file: `getDocument` rejects. -/
def corruptPdfFile : DocFile :=
  { mimeType := "application/pdf", name := "invoice.pdf", lastModified := 0,
    pdf := .error () }

/-! ### Unfolding lemmas for `analyzeInvoice` -/

theorem analyzeInvoice_indicators (d : FieldSet) (c : Option ℚ)
    (doc : Option (List SuspIndicator)) (env : Env) :
    (analyzeInvoice d c doc env).fraudIndicators =
      validateMath d ++ validateBusinessLogic d env ++ confPart c ++ validateFormats d ++
        (doc.getD []).map SuspIndicator.toFraud := rfl

theorem analyzeInvoice_fraudScore (d : FieldSet) (c : Option ℚ)
    (doc : Option (List SuspIndicator)) (env : Env) :
    (analyzeInvoice d c doc env).fraudScore =
      max 0 (min 100 (100 - weightedSeveritySum 2 (validateMath d)
        - weightedSeveritySum 1.5 (validateBusinessLogic d env)
        - confPenalty c - weightedSeveritySum 1 (validateFormats d)
        - weightedSeveritySum 1.2 ((doc.getD []).map SuspIndicator.toFraud))) := rfl

theorem analyzeInvoice_riskLevel (d : FieldSet) (c : Option ℚ)
    (doc : Option (List SuspIndicator)) (env : Env) :
    (analyzeInvoice d c doc env).riskLevel =
      (if (analyzeInvoice d c doc env).fraudScore ≥ 80 then RiskLevel.low
       else if (analyzeInvoice d c doc env).fraudScore ≥ 50 then RiskLevel.medium
       else RiskLevel.high) := rfl

/-! ### Shape lemmas: every scoring rule emits indicators with a fixed field
and type -/

theorem mem_mathBalancePart {d : FieldSet} {i : FraudIndicator} (h : i ∈ mathBalancePart d) :
    i.type = .critical ∧ i.field = "balanceOwing" ∧ i.severity = 10 := by
  simp only [mathBalancePart] at h
  split at h
  · split at h
    · simp only [List.mem_singleton] at h; subst h; exact ⟨rfl, rfl, rfl⟩
    · simp at h
  · simp at h

theorem mem_mathGstPart {d : FieldSet} {i : FraudIndicator} (h : i ∈ mathGstPart d) :
    i.type = .warning ∧ i.field = "gst" ∧ i.severity = 6 := by
  simp only [mathGstPart] at h
  split at h
  · split at h
    · simp only [List.mem_singleton] at h; subst h; exact ⟨rfl, rfl, rfl⟩
    · simp at h
  · simp at h

theorem mem_mathRangePart {d : FieldSet} {i : FraudIndicator} (h : i ∈ mathRangePart d) :
    i.type = .warning ∧ i.field = "totalCost" ∧ i.severity = 4 := by
  simp only [mathRangePart] at h
  split at h
  · simp only [List.mem_singleton] at h; subst h; exact ⟨rfl, rfl, rfl⟩
  · simp at h

theorem mem_bizVinPart {d : FieldSet} {i : FraudIndicator} (h : i ∈ bizVinPart d) :
    i.type = .critical ∧ i.field = "vin" ∧ i.severity = 9 := by
  simp only [bizVinPart] at h
  split at h
  · simp only [List.mem_singleton] at h; subst h; exact ⟨rfl, rfl, rfl⟩
  · simp at h

theorem mem_bizAbnPart {d : FieldSet} {i : FraudIndicator} (h : i ∈ bizAbnPart d) :
    i.type = .warning ∧ i.field = "abn" ∧ i.severity = 5 := by
  simp only [bizAbnPart] at h
  split at h
  · simp only [List.mem_singleton] at h; subst h; exact ⟨rfl, rfl, rfl⟩
  · simp at h

theorem mem_bizDatePart {d : FieldSet} {env : Env} {i : FraudIndicator}
    (h : i ∈ bizDatePart d env) : i.field = "invoiceDate" := by
  simp only [bizDatePart] at h
  split at h
  · split at h
    · simp only [List.mem_append] at h
      rcases h with h | h <;>
        · split at h
          · simp only [List.mem_singleton] at h; subst h; rfl
          · simp at h
    · simp at h
  · simp at h

theorem mem_bizYearPart {d : FieldSet} {env : Env} {i : FraudIndicator}
    (h : i ∈ bizYearPart d env) :
    i.type = .warning ∧ i.field = "vehicleYear" ∧ i.severity = 4 := by
  simp only [bizYearPart] at h
  split at h
  · split at h
    · simp only [List.mem_singleton] at h; subst h; exact ⟨rfl, rfl, rfl⟩
    · simp at h
  · simp at h

theorem mem_bizOdoPart {d : FieldSet} {env : Env} {i : FraudIndicator}
    (h : i ∈ bizOdoPart d env) : i.type = .warning ∧ i.field = "odometer" := by
  simp only [bizOdoPart] at h
  split at h
  · split at h
    · simp only [List.mem_append] at h
      rcases h with h | h <;>
        · split at h
          · simp only [List.mem_singleton] at h; subst h; exact ⟨rfl, rfl⟩
          · simp at h
    · simp at h
  · simp at h

theorem mem_fmtPhonePart {d : FieldSet} {i : FraudIndicator} (h : i ∈ fmtPhonePart d) :
    i.type = .info ∧ i.field = "phone" := by
  simp only [fmtPhonePart] at h
  split at h
  · simp only [List.mem_singleton] at h; subst h; exact ⟨rfl, rfl⟩
  · simp at h

theorem mem_fmtEmailPart {d : FieldSet} {i : FraudIndicator} (h : i ∈ fmtEmailPart d) :
    i.type = .warning ∧ i.field = "email" := by
  simp only [fmtEmailPart] at h
  split at h
  · simp only [List.mem_singleton] at h; subst h; exact ⟨rfl, rfl⟩
  · simp at h

theorem mem_fmtPostcodePart {d : FieldSet} {i : FraudIndicator} (h : i ∈ fmtPostcodePart d) :
    i.type = .info ∧ i.field = "postcode" := by
  simp only [fmtPostcodePart] at h
  split at h
  · simp only [List.mem_singleton] at h; subst h; exact ⟨rfl, rfl⟩
  · simp at h

theorem mem_confPart {c : Option ℚ} {i : FraudIndicator} (h : i ∈ confPart c) :
    i.type = .warning ∧ i.field = "general" := by
  cases c with
  | none => simp [confPart] at h
  | some q =>
    simp only [confPart] at h
    split at h
    · simp only [List.mem_singleton] at h; subst h; exact ⟨rfl, rfl⟩
    · simp at h

theorem mem_docIssues {l : List SuspIndicator} {i : FraudIndicator}
    (h : i ∈ l.map SuspIndicator.toFraud) :
    i.type = .metadataTampering ∨ i.type = .visualInconsistency ∨ i.type = .textLayerMismatch := by
  simp only [List.mem_map] at h
  obtain ⟨s, _, hs⟩ := h
  subst hs
  obtain ⟨st, sf, sm, ss⟩ := s
  cases st <;> simp [SuspIndicator.toFraud, SuspType.toIndicatorType]

theorem mem_validateMath {d : FieldSet} {i : FraudIndicator} (h : i ∈ validateMath d) :
    i ∈ mathBalancePart d ∨ i ∈ mathGstPart d ∨ i ∈ mathRangePart d := by
  simp only [validateMath, List.mem_append] at h; tauto

theorem mem_validateBusinessLogic {d : FieldSet} {env : Env} {i : FraudIndicator}
    (h : i ∈ validateBusinessLogic d env) :
    i ∈ bizVinPart d ∨ i ∈ bizAbnPart d ∨ i ∈ bizDatePart d env ∨
      i ∈ bizYearPart d env ∨ i ∈ bizOdoPart d env := by
  simp only [validateBusinessLogic, List.mem_append] at h; tauto

theorem mem_validateFormats {d : FieldSet} {i : FraudIndicator} (h : i ∈ validateFormats d) :
    i ∈ fmtPhonePart d ∨ i ∈ fmtEmailPart d ∨ i ∈ fmtPostcodePart d := by
  simp only [validateFormats, List.mem_append] at h; tauto

theorem mem_analyzeInvoice {d : FieldSet} {c : Option ℚ} {doc : Option (List SuspIndicator)}
    {env : Env} {i : FraudIndicator} (h : i ∈ (analyzeInvoice d c doc env).fraudIndicators) :
    i ∈ validateMath d ∨ i ∈ validateBusinessLogic d env ∨ i ∈ confPart c ∨
      i ∈ validateFormats d ∨ i ∈ (doc.getD []).map SuspIndicator.toFraud := by
  rw [analyzeInvoice_indicators] at h
  simp only [List.mem_append] at h; tauto

/-! ### Claim theorems -/

/-- C1: for every field set, optional confidence and optional
integrity-analysis input, `analyzeInvoice` returns a `fraudScore` in
`[0, 100]`, and `riskLevel` is `low` iff the score is at least 80, `medium`
iff it is in `[50, 80)`, and `high` iff it is below 50. -/
theorem fraudScore_bounds_riskLevel (d : FieldSet) (c : Option ℚ)
    (doc : Option (List SuspIndicator)) (env : Env) :
    0 ≤ (analyzeInvoice d c doc env).fraudScore ∧
    (analyzeInvoice d c doc env).fraudScore ≤ 100 ∧
    ((analyzeInvoice d c doc env).riskLevel = .low ↔
      (analyzeInvoice d c doc env).fraudScore ≥ 80) ∧
    ((analyzeInvoice d c doc env).riskLevel = .medium ↔
      (50 ≤ (analyzeInvoice d c doc env).fraudScore ∧
        (analyzeInvoice d c doc env).fraudScore < 80)) ∧
    ((analyzeInvoice d c doc env).riskLevel = .high ↔
      (analyzeInvoice d c doc env).fraudScore < 50) := by
  refine ⟨?_, ?_, ?_, ?_, ?_⟩
  · rw [analyzeInvoice_fraudScore]; exact le_max_left _ _
  · rw [analyzeInvoice_fraudScore]
    exact max_le (by norm_num) (min_le_left _ _)
  · rw [analyzeInvoice_riskLevel]
    split_ifs with h1 h2
    · exact iff_of_true rfl h1
    · exact iff_of_false (by simp) h1
    · exact iff_of_false (by simp) h1
  · rw [analyzeInvoice_riskLevel]
    split_ifs with h1 h2
    · exact iff_of_false (by simp) (fun hc => absurd h1 (not_le.mpr hc.2))
    · exact iff_of_true rfl ⟨h2, lt_of_not_ge h1⟩
    · exact iff_of_false (by simp) (fun hc => h2 hc.1)
  · rw [analyzeInvoice_riskLevel]
    split_ifs with h1 h2
    · exact iff_of_false (by simp) (not_lt.mpr (by linarith))
    · exact iff_of_false (by simp) (not_lt.mpr h2)
    · exact iff_of_true rfl (lt_of_not_ge h2)

/-- C9: scoring is deterministic — two calls of `analyzeInvoice` on the same
field set, confidence, integrity indicators and evaluation time return the
same score, the same indicator list, and the same risk level (the embedding
is a pure function of exactly these inputs). -/
theorem analyzeInvoice_deterministic (d : FieldSet) (c : Option ℚ)
    (doc : Option (List SuspIndicator)) (env : Env) :
    (analyzeInvoice d c doc env).fraudScore = (analyzeInvoice d c doc env).fraudScore ∧
    (analyzeInvoice d c doc env).fraudIndicators =
      (analyzeInvoice d c doc env).fraudIndicators ∧
    (analyzeInvoice d c doc env).riskLevel = (analyzeInvoice d c doc env).riskLevel ∧
    analyzeInvoice d c doc env = analyzeInvoice d c doc env :=
  ⟨rfl, rfl, rfl, rfl⟩

/-- C3: when the `vin` field is present (non-empty) and its length is not 17,
the indicator list of `analyzeInvoice` contains a critical indicator with
field `"vin"` and severity 9. -/
theorem vin_length_indicator (d : FieldSet) (c : Option ℚ)
    (doc : Option (List SuspIndicator)) (env : Env)
    (hv : d.vin ≠ "") (hl : d.vin.length ≠ 17) :
    ∃ i ∈ (analyzeInvoice d c doc env).fraudIndicators,
      i.type = .critical ∧ i.field = "vin" ∧ i.severity = 9 := by
  refine ⟨vinLengthIndicator, ?_, rfl, rfl, rfl⟩
  have hb : bizVinPart d = [vinLengthIndicator] := by
    simp only [bizVinPart]
    rw [if_pos ⟨hv, hl⟩]
    rfl
  rw [analyzeInvoice_indicators]
  simp [validateBusinessLogic, hb]

theorem vin_length_indicator_witness :
    ∃ i ∈ (analyzeInvoice { vin := "ABC" } (some 80) none sampleEnv).fraudIndicators,
      i.type = .critical ∧ i.field = "vin" ∧ i.severity = 9 :=
  vin_length_indicator { vin := "ABC" } (some 80) none sampleEnv
    (by decide) (by decide)

/-- C6: when the fast OCR pass yields fewer than 100 characters, the
orchestration re-runs extraction in thorough mode (preprocessing on, render
scale 2.5 instead of 1.5) and returns the thorough-mode text, discarding the
fast-mode text. -/
theorem ocr_escalation (recognize : OcrConfig → String)
    (h : (extractTextFromFile recognize false true).length < 100) :
    processInvoiceText recognize = extractTextFromFile recognize true false ∧
    modeConfig true false = { scale := 2.5, preprocess := true } ∧
    modeConfig false true = { scale := 1.5, preprocess := false } ∧
    (modeConfig false true).scale < (modeConfig true false).scale := by
  refine ⟨?_, rfl, rfl, by norm_num [modeConfig]⟩
  simp only [processInvoiceText]
  rw [if_pos h]

theorem ocr_escalation_witness :
    (processInvoiceText (fun cfg => if cfg.preprocess then
        String.mk (List.replicate 120 'x') else "blurry") =
      extractTextFromFile (fun cfg => if cfg.preprocess then
        String.mk (List.replicate 120 'x') else "blurry") true false) ∧
    modeConfig true false = { scale := 2.5, preprocess := true } :=
  ⟨(ocr_escalation _ (by decide)).1, (ocr_escalation (fun cfg => if cfg.preprocess then
      String.mk (List.replicate 120 'x') else "blurry") (by decide)).2.1⟩

/-! ### Levenshtein similarity lemmas (C8) -/

theorem levMat_symm (s1 s2 : List Char) : ∀ j i, levMat s1 s2 j i = levMat s2 s1 i j := by
  intro j
  induction j with
  | zero =>
    intro i
    cases i with
    | zero => simp [levMat]
    | succ i => simp [levMat]
  | succ j ihj =>
    intro i
    induction i with
    | zero => simp [levMat]
    | succ i ihi =>
      have h1 := ihj (i + 1)
      have h2 := ihj i
      simp only [levMat, h1, h2, ihi]
      by_cases h : s1.getD i ' ' = s2.getD j ' '
      · rw [if_pos h, if_pos h.symm]
        omega
      · rw [if_neg h, if_neg (fun he => h he.symm)]
        omega

theorem levMat_self_diag (s : List Char) : ∀ j, levMat s s j j = 0 := by
  intro j
  induction j with
  | zero => simp [levMat]
  | succ j ih =>
    simp [levMat, ih]

theorem calculateTextSimilarity_symm (a b : List Char) :
    calculateTextSimilarity a b = calculateTextSimilarity b a := by
  unfold calculateTextSimilarity levenshteinDistance
  rcases lt_trichotomy a.length b.length with h | h | h
  · have h1 : ¬ a.length > b.length := by omega
    have h2 : b.length > a.length := h
    simp only [if_neg h1, if_pos h2]
  · have h1 : ¬ a.length > b.length := by omega
    have h2 : ¬ b.length > a.length := by omega
    simp only [if_neg h1, if_neg h2]
    rw [levMat_symm b a, h]
  · have h1 : a.length > b.length := h
    have h2 : ¬ b.length > a.length := by omega
    simp only [if_pos h1, if_neg h2]

theorem calculateTextSimilarity_self (a : List Char) (h : a ≠ []) :
    calculateTextSimilarity a a = 100 := by
  unfold calculateTextSimilarity levenshteinDistance
  have h1 : ¬ a.length > a.length := by omega
  have hn : a.length ≠ 0 := by
    intro hc
    exact h (List.length_eq_zero.mp hc)
  simp only [if_neg h1, if_neg hn, levMat_self_diag]
  have hq : ((a.length : ℚ) - ((0 : Nat) : ℚ)) / (a.length : ℚ) * 100 = 100 := by
    have : (a.length : ℚ) ≠ 0 := Nat.cast_ne_zero.mpr hn
    field_simp
  rw [hq]
  unfold jsRound
  rw [Int.floor_eq_iff]
  norm_num

/-- C8: the Levenshtein-based `calculateTextSimilarity` is symmetric in its
two arguments, and every nonempty string has similarity 100 with itself. -/
theorem textSimilarity_symm_self (a b : List Char) :
    calculateTextSimilarity a b = calculateTextSimilarity b a ∧
    (a ≠ [] → calculateTextSimilarity a a = 100) :=
  ⟨calculateTextSimilarity_symm a b, calculateTextSimilarity_self a⟩

theorem textSimilarity_symm_self_witness :
    (calculateTextSimilarity ['a', 'b'] ['b'] = calculateTextSimilarity ['b'] ['a', 'b']) ∧
    calculateTextSimilarity ['a', 'b'] ['a', 'b'] = 100 :=
  ⟨(textSimilarity_symm_self ['a', 'b'] ['b']).1,
   (textSimilarity_symm_self ['a', 'b'] ['b']).2 (by decide)⟩

/-! ### C2: consistent balance produces no critical balanceOwing indicator -/

theorem mathBalancePart_nil {d : FieldSet} {tc dep tiv bo : ℚ}
    (h1 : parseAmount d.totalCost = some tc) (h2 : parseAmount d.deposit = some dep)
    (h3 : parseAmount d.tradeInValue = some tiv) (h4 : parseAmount d.balanceOwing = some bo)
    (h5 : |bo - (tc - dep - tiv)| ≤ 1) :
    mathBalancePart d = [] := by
  simp only [mathBalancePart, h1, h2, h3, h4]
  split
  · rw [if_neg]
    rintro ⟨-, habs⟩
    simp only [numOr0, Option.getD_some] at habs
    exact absurd habs (not_lt.mpr h5)
  · rfl

/-- C2: whenever `totalCost`, `deposit`, `tradeInValue` and `balanceOwing`
all parse to numbers and the balance is consistent within one currency unit,
`analyzeInvoice` produces no critical indicator with field
`"balanceOwing"`. -/
theorem balance_consistent_no_critical (d : FieldSet) (c : Option ℚ)
    (doc : Option (List SuspIndicator)) (env : Env) (tc dep tiv bo : ℚ)
    (h1 : parseAmount d.totalCost = some tc) (h2 : parseAmount d.deposit = some dep)
    (h3 : parseAmount d.tradeInValue = some tiv) (h4 : parseAmount d.balanceOwing = some bo)
    (h5 : |bo - (tc - dep - tiv)| ≤ 1) :
    ∀ i ∈ (analyzeInvoice d c doc env).fraudIndicators,
      ¬(i.type = .critical ∧ i.field = "balanceOwing") := by
  rintro i hi ⟨hty, hf⟩
  rcases mem_analyzeInvoice hi with hm | hb | hc | hfm | hd
  · rcases mem_validateMath hm with h | h | h
    · rw [mathBalancePart_nil h1 h2 h3 h4 h5] at h
      exact absurd h (List.not_mem_nil i)
    · rw [(mem_mathGstPart h).2.1] at hf
      exact absurd hf (by decide)
    · rw [(mem_mathRangePart h).2.1] at hf
      exact absurd hf (by decide)
  · rcases mem_validateBusinessLogic hb with h | h | h | h | h
    · rw [(mem_bizVinPart h).2.1] at hf
      exact absurd hf (by decide)
    · rw [(mem_bizAbnPart h).2.1] at hf
      exact absurd hf (by decide)
    · rw [mem_bizDatePart h] at hf
      exact absurd hf (by decide)
    · rw [(mem_bizYearPart h).2.1] at hf
      exact absurd hf (by decide)
    · rw [(mem_bizOdoPart h).2] at hf
      exact absurd hf (by decide)
  · rw [(mem_confPart hc).2] at hf
    exact absurd hf (by decide)
  · rcases mem_validateFormats hfm with h | h | h
    · rw [(mem_fmtPhonePart h).2] at hf
      exact absurd hf (by decide)
    · rw [(mem_fmtEmailPart h).2] at hf
      exact absurd hf (by decide)
    · rw [(mem_fmtPostcodePart h).2] at hf
      exact absurd hf (by decide)
  · rcases mem_docIssues hd with ht | ht | ht <;> rw [hty] at ht <;> exact absurd ht (by decide)

unseal Rat.add Rat.mul Rat.inv Rat.sub Rat.ofScientific in
theorem balance_consistent_no_critical_witness :
    (parseAmount "10000" = some 10000 ∧ parseAmount "7000.50" = some 7000.5 ∧
      |(7000.5 : ℚ) - (10000 - 2000 - 1000)| ≤ 1) ∧
    ∀ i ∈ (analyzeInvoice
        { totalCost := "10000", deposit := "2000", tradeInValue := "1000",
          balanceOwing := "7000.50" } (some 90) none sampleEnv).fraudIndicators,
      ¬(i.type = .critical ∧ i.field = "balanceOwing") :=
  ⟨⟨by decide, by decide, by rw [abs_le]; constructor <;> norm_num⟩,
   balance_consistent_no_critical _ (some 90) none sampleEnv 10000 2000 1000 7000.5
     (by decide) (by decide) (by decide) (by decide)
     (by rw [abs_le]; constructor <;> norm_num)⟩

/-! ### C4: the GST-rate band -/

theorem gst_warning_mem {d : FieldSet} {c : Option ℚ} {doc : Option (List SuspIndicator)}
    {env : Env} {i : FraudIndicator}
    (hi : i ∈ (analyzeInvoice d c doc env).fraudIndicators)
    (h : i.type = .warning ∧ i.field = "gst" ∧ i.severity = 6) :
    i ∈ mathGstPart d := by
  obtain ⟨hty, hf, hs⟩ := h
  rcases mem_analyzeInvoice hi with hm | hb | hc | hfm | hd
  · rcases mem_validateMath hm with h | h | h
    · rw [(mem_mathBalancePart h).2.1] at hf
      exact absurd hf (by decide)
    · exact h
    · rw [(mem_mathRangePart h).2.1] at hf
      exact absurd hf (by decide)
  · rcases mem_validateBusinessLogic hb with h | h | h | h | h
    · rw [(mem_bizVinPart h).2.1] at hf
      exact absurd hf (by decide)
    · rw [(mem_bizAbnPart h).2.1] at hf
      exact absurd hf (by decide)
    · rw [mem_bizDatePart h] at hf
      exact absurd hf (by decide)
    · rw [(mem_bizYearPart h).2.1] at hf
      exact absurd hf (by decide)
    · rw [(mem_bizOdoPart h).2] at hf
      exact absurd hf (by decide)
  · rw [(mem_confPart hc).2] at hf
    exact absurd hf (by decide)
  · rcases mem_validateFormats hfm with h | h | h
    · rw [(mem_fmtPhonePart h).2] at hf
      exact absurd hf (by decide)
    · rw [(mem_fmtEmailPart h).2] at hf
      exact absurd hf (by decide)
    · rw [(mem_fmtPostcodePart h).2] at hf
      exact absurd hf (by decide)
  · rcases mem_docIssues hd with ht | ht | ht <;> rw [hty] at ht <;> exact absurd ht (by decide)

theorem mathGstPart_fire {d : FieldSet} {g t : ℚ}
    (hg : parseAmount d.gst = some g) (ht : parseAmount d.totalCost = some t)
    (hg0 : g ≠ 0) (ht0 : t ≠ 0) :
    mathGstPart d =
      (if g / t * 100 < 8 ∨ g / t * 100 > 12 then
        [{ type := .warning, field := "gst",
           message := "Unusual GST rate: " ++ jsToFixed 1 (g / t * 100) ++ "% (expected ~10%)",
           severity := 6 }]
      else []) := by
  have htr : numTruthy (some g) := by simp [numTruthy, numOr0, hg0]
  have htt : numTruthy (some t) := by simp [numTruthy, numOr0, ht0]
  simp only [mathGstPart, hg, ht]
  rw [if_pos ⟨htr, htt⟩]
  simp only [numOr0, Option.getD_some]

unseal Rat.add Rat.mul Rat.inv Rat.sub Rat.ofScientific in
/-- C4 counterexample: on `totalCost = "50000"` and `gst = "6000.00"` the GST
rate is exactly 12%, which is inside the inclusive `[8, 12]` band, so —
contrary to the claim — no severity-6 GST warning is produced. -/
theorem gst_twelve_percent_counterexample :
    ¬ ∃ i ∈ (analyzeInvoice
        { totalCost := "50000", gst := "6000.00" } none none sampleEnv).fraudIndicators,
      i.type = .warning ∧ i.field = "gst" ∧ i.severity = 6 := by decide

unseal Rat.add Rat.mul Rat.inv Rat.sub Rat.ofScientific in
/-- C4 (amended): `totalCost = 50000.00`, `gst = 4545.45` (≈9.09%) produces
no GST warning; `totalCost = 50000`, `gst = 6000.00` (exactly 12%) also
produces no GST warning, since the band check fires only strictly outside
`[8, 12]`; and in general, when both fields parse to nonzero numbers, the
severity-6 warning is produced exactly when `gst/totalCost*100` is strictly
outside `[8, 12]`. -/
theorem gst_band_characterisation :
    (∀ (c : Option ℚ) (doc : Option (List SuspIndicator)) (env : Env),
      ¬ ∃ i ∈ (analyzeInvoice
          { totalCost := "50000.00", gst := "4545.45" } c doc env).fraudIndicators,
        i.type = .warning ∧ i.field = "gst" ∧ i.severity = 6) ∧
    (∀ (c : Option ℚ) (doc : Option (List SuspIndicator)) (env : Env),
      ¬ ∃ i ∈ (analyzeInvoice
          { totalCost := "50000", gst := "6000.00" } c doc env).fraudIndicators,
        i.type = .warning ∧ i.field = "gst" ∧ i.severity = 6) ∧
    (∀ (d : FieldSet) (c : Option ℚ) (doc : Option (List SuspIndicator)) (env : Env) (g t : ℚ),
      parseAmount d.gst = some g → g ≠ 0 → parseAmount d.totalCost = some t → t ≠ 0 →
      ((∃ i ∈ (analyzeInvoice d c doc env).fraudIndicators,
          i.type = .warning ∧ i.field = "gst" ∧ i.severity = 6) ↔
        (g / t * 100 < 8 ∨ g / t * 100 > 12))) := by
  refine ⟨?_, ?_, ?_⟩
  · rintro c doc env ⟨i, hi, hp⟩
    have hm := gst_warning_mem hi hp
    rw [show mathGstPart { totalCost := "50000.00", gst := "4545.45" } = [] from by decide] at hm
    exact absurd hm (List.not_mem_nil i)
  · rintro c doc env ⟨i, hi, hp⟩
    have hm := gst_warning_mem hi hp
    rw [show mathGstPart { totalCost := "50000", gst := "6000.00" } = [] from by decide] at hm
    exact absurd hm (List.not_mem_nil i)
  · intro d c doc env g t hg hg0 ht ht0
    constructor
    · rintro ⟨i, hi, hp⟩
      have hm := gst_warning_mem hi hp
      rw [mathGstPart_fire hg ht hg0 ht0] at hm
      by_cases hband : g / t * 100 < 8 ∨ g / t * 100 > 12
      · exact hband
      · rw [if_neg hband] at hm
        exact absurd hm (List.not_mem_nil i)
    · intro hband
      refine ⟨{ type := .warning,
                field := "gst",
                message := "Unusual GST rate: " ++ jsToFixed 1 (g / t * 100) ++
                  "% (expected ~10%)",
                severity := 6 }, ?_, rfl, rfl, rfl⟩
      have hm : mathGstPart d =
          [{ type := .warning,
             field := "gst",
             message := "Unusual GST rate: " ++ jsToFixed 1 (g / t * 100) ++
               "% (expected ~10%)",
             severity := 6 }] := by
        rw [mathGstPart_fire hg ht hg0 ht0, if_pos hband]
      rw [analyzeInvoice_indicators]
      simp [validateMath, hm]

unseal Rat.add Rat.mul Rat.inv Rat.sub Rat.ofScientific in
theorem gst_band_characterisation_witness :
    (parseAmount "2000" = some 2000 ∧ ((2000 : ℚ) ≠ 0) ∧
      ((2000 : ℚ) / 50000 * 100 < 8 ∨ (2000 : ℚ) / 50000 * 100 > 12)) ∧
    (∃ i ∈ (analyzeInvoice
        { totalCost := "50000", gst := "2000" } none none sampleEnv).fraudIndicators,
      i.type = .warning ∧ i.field = "gst" ∧ i.severity = 6) :=
  ⟨⟨by decide, by norm_num, by norm_num⟩,
   (gst_band_characterisation.2.2 _ none none sampleEnv 2000 50000
      (by decide) (by norm_num) (by decide) (by norm_num)).mpr (by norm_num)⟩

/-! ### C5: re-scoring on edit drops the integrity indicators -/

theorem mem_bizDatePart_type {d : FieldSet} {env : Env} {i : FraudIndicator}
    (h : i ∈ bizDatePart d env) : i.type = .critical ∨ i.type = .warning := by
  simp only [bizDatePart] at h
  split at h
  · split at h
    · simp only [List.mem_append] at h
      rcases h with h | h
      · split at h
        · simp only [List.mem_singleton] at h; subst h; exact Or.inl rfl
        · simp at h
      · split at h
        · simp only [List.mem_singleton] at h; subst h; exact Or.inr rfl
        · simp at h
    · simp at h
  · simp at h

unseal Rat.add Rat.mul Rat.inv Rat.sub Rat.ofScientific in
/-- C5 counterexample: an upload whose document analysis produced
`sampleSuspIndicator` carries it in the session's fraud indicator list, but
after a human edit (deposit set to `"100"`) the recomputed list is empty —
the previous integrity indicator is dropped, not preserved verbatim. -/
theorem integrity_dropped_counterexample :
    sampleSuspIndicator.toFraud ∈ sampleUploadedState.fraudIndicators ∧
    (handleDataUpdate sampleUploadedState
      { deposit := some "100" } sampleEnv).fraudIndicators = [] ∧
    sampleSuspIndicator.toFraud ∉ (handleDataUpdate sampleUploadedState
      { deposit := some "100" } sampleEnv).fraudIndicators := by decide

/-- C5 (amended): a human edit re-runs `analyzeInvoice` on the merged field
set with the stored confidence and no document analysis, so the recomputed
assessment contains only field-rule indicators (`critical`/`warning`/`info`)
— the previous integrity indicators are dropped, not preserved. -/
theorem rescore_drops_integrity (s : SessionState) (upd : FieldPatch) (env : Env) :
    (handleDataUpdate s upd env).fraudIndicators =
      (analyzeInvoice (mergeFields s.fields upd) (some s.confidence) none env).fraudIndicators ∧
    ∀ i ∈ (handleDataUpdate s upd env).fraudIndicators,
      i.type = .critical ∨ i.type = .warning ∨ i.type = .info := by
  refine ⟨rfl, ?_⟩
  intro i hi
  have hi2 : i ∈ (analyzeInvoice (mergeFields s.fields upd)
      (some s.confidence) none env).fraudIndicators := hi
  rcases mem_analyzeInvoice hi2 with hm | hb | hc | hfm | hd
  · rcases mem_validateMath hm with h | h | h
    · exact Or.inl (mem_mathBalancePart h).1
    · exact Or.inr (Or.inl (mem_mathGstPart h).1)
    · exact Or.inr (Or.inl (mem_mathRangePart h).1)
  · rcases mem_validateBusinessLogic hb with h | h | h | h | h
    · exact Or.inl (mem_bizVinPart h).1
    · exact Or.inr (Or.inl (mem_bizAbnPart h).1)
    · rcases mem_bizDatePart_type h with h2 | h2
      · exact Or.inl h2
      · exact Or.inr (Or.inl h2)
    · exact Or.inr (Or.inl (mem_bizYearPart h).1)
    · exact Or.inr (Or.inl (mem_bizOdoPart h).1)
  · exact Or.inr (Or.inl (mem_confPart hc).1)
  · rcases mem_validateFormats hfm with h | h | h
    · exact Or.inr (Or.inr (mem_fmtPhonePart h).1)
    · exact Or.inr (Or.inl (mem_fmtEmailPart h).1)
    · exact Or.inr (Or.inr (mem_fmtPostcodePart h).1)
  · simp only [Option.getD_none, List.map_nil] at hd
    exact absurd hd (List.not_mem_nil i)

unseal Rat.add Rat.mul Rat.inv Rat.sub Rat.ofScientific in
theorem rescore_drops_integrity_witness :
    ((handleDataUpdate sampleVinState {} sampleEnv).fraudIndicators =
      (analyzeInvoice (mergeFields sampleVinState.fields {})
        (some sampleVinState.confidence) none sampleEnv).fraudIndicators) ∧
    (vinLengthIndicator.type = .critical ∨ vinLengthIndicator.type = .warning ∨
      vinLengthIndicator.type = .info) :=
  ⟨(rescore_drops_integrity sampleVinState {} sampleEnv).1,
   (rescore_drops_integrity sampleVinState {} sampleEnv).2 vinLengthIndicator (by decide)⟩

/-! ### C10: the fallback parser's VIN is always well formed -/

theorem matchVinAt_sound {l v : List Char} (h : matchVinAt l = some v) :
    v.length = 17 ∧ v.all Char.isAlphanum = true := by
  simp only [matchVinAt] at h
  split at h
  · exact absurd h (by simp)
  · split_ifs at h with hc
    injection h with h
    subst h
    exact hc

theorem vinScan_sound : ∀ {l v : List Char}, vinScan l = some v →
    v.length = 17 ∧ v.all Char.isAlphanum = true := by
  intro l
  induction l with
  | nil => intro v h; simp [vinScan] at h
  | cons c t ih =>
    intro v h
    simp only [vinScan] at h
    cases hm : matchVinAt (c :: t) with
    | some w =>
      rw [hm] at h
      injection h with h
      subst h
      exact matchVinAt_sound hm
    | none =>
      rw [hm] at h
      exact ih h

theorem vin_critical_mem {d : FieldSet} {c : Option ℚ} {doc : Option (List SuspIndicator)}
    {env : Env} {i : FraudIndicator}
    (hi : i ∈ (analyzeInvoice d c doc env).fraudIndicators)
    (h : i.type = .critical ∧ i.field = "vin" ∧ i.severity = 9) :
    i ∈ bizVinPart d := by
  obtain ⟨hty, hf, hs⟩ := h
  rcases mem_analyzeInvoice hi with hm | hb | hc | hfm | hd
  · rcases mem_validateMath hm with h | h | h
    · rw [(mem_mathBalancePart h).2.1] at hf
      exact absurd hf (by decide)
    · rw [(mem_mathGstPart h).2.1] at hf
      exact absurd hf (by decide)
    · rw [(mem_mathRangePart h).2.1] at hf
      exact absurd hf (by decide)
  · rcases mem_validateBusinessLogic hb with h | h | h | h | h
    · exact h
    · rw [(mem_bizAbnPart h).2.1] at hf
      exact absurd hf (by decide)
    · rw [mem_bizDatePart h] at hf
      exact absurd hf (by decide)
    · rw [(mem_bizYearPart h).2.1] at hf
      exact absurd hf (by decide)
    · rw [(mem_bizOdoPart h).2] at hf
      exact absurd hf (by decide)
  · rw [(mem_confPart hc).2] at hf
    exact absurd hf (by decide)
  · rcases mem_validateFormats hfm with h | h | h
    · rw [(mem_fmtPhonePart h).2] at hf
      exact absurd hf (by decide)
    · rw [(mem_fmtEmailPart h).2] at hf
      exact absurd hf (by decide)
    · rw [(mem_fmtPostcodePart h).2] at hf
      exact absurd hf (by decide)
  · rcases mem_docIssues hd with ht | ht | ht <;> rw [hty] at ht <;> exact absurd ht (by decide)

/-- C10: whenever the regex fallback parser produces a `vin` value, that
value is exactly 17 alphanumeric characters, and consequently scoring a
field set whose `vin` came from the fallback parser never yields the
severity-9 critical `"vin"` indicator. -/
theorem fallback_vin_well_formed :
    (∀ (text v : String), parseAustralianInvoiceVin text = some v →
      v.length = 17 ∧ v.data.all Char.isAlphanum = true) ∧
    (∀ (text : String) (d : FieldSet) (c : Option ℚ)
        (doc : Option (List SuspIndicator)) (env : Env),
      d.vin = (parseAustralianInvoiceVin text).getD "" →
      ∀ i ∈ (analyzeInvoice d c doc env).fraudIndicators,
        ¬(i.type = .critical ∧ i.field = "vin" ∧ i.severity = 9)) := by
  have hsound : ∀ (text v : String), parseAustralianInvoiceVin text = some v →
      v.length = 17 ∧ v.data.all Char.isAlphanum = true := by
    intro text v h
    simp only [parseAustralianInvoiceVin, Option.map_eq_some'] at h
    obtain ⟨w, hw, hv⟩ := h
    obtain ⟨hl, ha⟩ := vinScan_sound hw
    subst hv
    exact ⟨hl, ha⟩
  refine ⟨hsound, ?_⟩
  intro text d c doc env hvin i hi hcontra
  have hmem := vin_critical_mem hi hcontra
  have hnil : bizVinPart d = [] := by
    cases hp : parseAustralianInvoiceVin text with
    | none =>
      rw [hp] at hvin
      simp only [Option.getD_none] at hvin
      simp only [bizVinPart]
      rw [if_neg]
      rintro ⟨hne, -⟩
      exact hne hvin
    | some v =>
      rw [hp] at hvin
      simp only [Option.getD_some] at hvin
      have hlen := (hsound text v hp).1
      simp only [bizVinPart]
      rw [if_neg]
      rintro ⟨-, hl⟩
      rw [hvin] at hl
      exact hl hlen
  rw [hnil] at hmem
  exact absurd hmem (List.not_mem_nil i)

theorem fallback_vin_well_formed_witness :
    (("1HGCM82633A004352" : String).length = 17 ∧
      ("1HGCM82633A004352" : String).data.all Char.isAlphanum = true) ∧
    (∀ i ∈ (analyzeInvoice
        { vin := "1HGCM82633A004352" } none none sampleEnv).fraudIndicators,
      ¬(i.type = .critical ∧ i.field = "vin" ∧ i.severity = 9)) :=
  ⟨fallback_vin_well_formed.1 "VIN: 1HGCM82633A004352" "1HGCM82633A004352" (by decide),
   fallback_vin_well_formed.2 "VIN: 1HGCM82633A004352"
     { vin := "1HGCM82633A004352" } none none sampleEnv (by decide)⟩

/-! ### C7: analyzer failure degrades to the generic indicator -/

theorem mem_metaDateIndicators {m : DocumentMetadata} {now : Int} {i : SuspIndicator}
    (h : i ∈ metaDateIndicators m now) : i.field = "modification-date" := by
  simp only [metaDateIndicators] at h
  split at h
  · simp only [List.mem_append] at h
    rcases h with h | h <;>
      · split at h
        · simp only [List.mem_singleton] at h; subst h; rfl
        · simp at h
  · simp at h

theorem mem_metaSoftwareIndicators {m : DocumentMetadata} {i : SuspIndicator}
    (h : i ∈ metaSoftwareIndicators m) : i.field = "software-signature" := by
  simp only [metaSoftwareIndicators, List.mem_flatMap] at h
  obtain ⟨s, -, hs⟩ := h
  split at hs
  · simp only [List.mem_singleton] at hs; subst hs; rfl
  · simp at hs

theorem mem_analyzeMetadataForTampering {m : DocumentMetadata} {now : Int} {i : SuspIndicator}
    (h : i ∈ analyzeMetadataForTampering m now) :
    i.field = "modification-date" ∨ i.field = "software-signature" ∨
      i.field = "missing-metadata" ∨ i.field = "document-title" := by
  simp only [analyzeMetadataForTampering, List.mem_append] at h
  rcases h with ((h | h) | h) | h
  · exact Or.inl (mem_metaDateIndicators h)
  · exact Or.inr (Or.inl (mem_metaSoftwareIndicators h))
  · split at h
    · simp only [List.mem_singleton] at h; subst h
      exact Or.inr (Or.inr (Or.inl rfl))
    · simp at h
  · split at h
    · split at h
      · simp only [List.mem_singleton] at h; subst h
        exact Or.inr (Or.inr (Or.inr rfl))
      · simp at h
    · simp at h

theorem mem_analyzeFontConsistency {fa : List FontAnalysis} {i : SuspIndicator}
    (h : i ∈ analyzeFontConsistency fa) :
    i.field = "font-variety" ∨ i.field = "font-type" ∨ i.field = "text-alignment" := by
  simp only [analyzeFontConsistency, List.mem_append] at h
  rcases h with (h | h) | h
  · split at h
    · simp only [List.mem_singleton] at h; subst h; exact Or.inl rfl
    · simp at h
  · split at h
    · simp only [List.mem_singleton] at h; subst h; exact Or.inr (Or.inl rfl)
    · simp at h
  · simp only [List.mem_flatMap] at h
    obtain ⟨s, -, hs⟩ := h
    split at hs
    · split at hs
      · simp only [List.mem_singleton] at hs; subst hs; exact Or.inr (Or.inr rfl)
      · simp at hs
    · simp at hs

theorem analyzePdf_no_general (f : DocFile) (now : Int) :
    ∀ i ∈ (analyzePdfDocument f now).1.suspiciousIndicators, i.field ≠ "general" := by
  intro i hi
  have hmeta : ∀ {m : DocumentMetadata} {j : SuspIndicator},
      j ∈ analyzeMetadataForTampering m now → j.field ≠ "general" := by
    intro m j hj
    rcases mem_analyzeMetadataForTampering hj with h | h | h | h <;> rw [h] <;> decide
  have hfonts : ∀ {fa : List FontAnalysis} {j : SuspIndicator},
      j ∈ analyzeFontConsistency fa → j.field ≠ "general" := by
    intro fa j hj
    rcases mem_analyzeFontConsistency hj with h | h | h <;> rw [h] <;> decide
  unfold analyzePdfDocument at hi
  cases hpdf : f.pdf with
  | error e =>
    simp only [hpdf] at hi
    simp [emptyAnalysisResult] at hi
  | ok pdfDoc =>
    simp only [hpdf] at hi
    cases hinfo : pdfDoc.info with
    | error e =>
      simp only [hinfo] at hi
      simp [emptyAnalysisResult] at hi
    | ok info =>
      simp only [hinfo] at hi
      cases hpage : pdfDoc.page1 with
      | error e =>
        simp only [hpage] at hi
        exact hmeta hi
      | ok page =>
        simp only [hpage] at hi
        cases hitems : page.textItems with
        | error e =>
          simp only [hitems] at hi
          exact hmeta hi
        | ok items =>
          simp only [hitems] at hi
          cases hann : page.annotations with
          | error e =>
            simp only [hann] at hi
            split at hi
            · simp only [List.mem_append] at hi
              rcases hi with hi | hi
              · exact hmeta hi
              · exact hfonts hi
            · exact hmeta hi
          | ok n =>
            simp only [hann] at hi
            split at hi
            · simp only [List.mem_append] at hi
              rcases hi with hi | hi
              · split at hi
                · simp only [List.mem_append] at hi
                  rcases hi with hi | hi
                  · exact hmeta hi
                  · exact hfonts hi
                · exact hmeta hi
              · simp only [List.mem_singleton] at hi
                subst hi
                exact (by decide : ("document-structure" : String) ≠ "general")
            · split at hi
              · simp only [List.mem_append] at hi
                rcases hi with hi | hi
                · exact hmeta hi
                · exact hfonts hi
              · exact hmeta hi

theorem analyzeDocumentCore_no_general (f : DocFile) (now : Int) :
    ∀ i ∈ (analyzeDocumentCore f now).1.suspiciousIndicators, i.field ≠ "general" := by
  intro i hi
  unfold analyzeDocumentCore at hi
  split at hi
  · exact analyzePdf_no_general f now i hi
  · simp only [analyzeImageDocument] at hi
    split at hi
    · simp only [List.mem_singleton] at hi; subst hi; decide
    · simp at hi

/-- C7: if any step of the document integrity analysis throws, the error is
not propagated: `analyzeDocument` still returns a result whose indicator list
contains exactly one generic (`field = "general"`) indicator, of severity 4;
and when the file cannot even be opened (corrupt or protected, so
`getDocument` rejects before any rule ran), the list is exactly that one
generic indicator.  The caller is never blocked: `analyzeDocument` is a total
function into `DocumentAnalysisResult`. -/
theorem analysis_failure_degrades (f : DocFile) (now : Int)
    (h : (analyzeDocumentCore f now).2 = true) :
    ((analyzeDocument f now).suspiciousIndicators.filter
      (fun i => decide (i.field = "general"))) = [genericFailureIndicator] ∧
    genericFailureIndicator.severity = 4 ∧
    (f.pdf = .error () → (analyzeDocument f now).suspiciousIndicators = [genericFailureIndicator]) := by
  have hd : analyzeDocument f now =
      { (analyzeDocumentCore f now).1 with
        suspiciousIndicators :=
          (analyzeDocumentCore f now).1.suspiciousIndicators ++ [genericFailureIndicator] } := by
    simp only [analyzeDocument, h, if_true]
  refine ⟨?_, rfl, ?_⟩
  · rw [hd]
    simp only [List.filter_append]
    have h1 : (analyzeDocumentCore f now).1.suspiciousIndicators.filter
        (fun i => decide (i.field = "general")) = [] := by
      rw [List.filter_eq_nil_iff]
      intro i hi
      simpa using analyzeDocumentCore_no_general f now i hi
    rw [h1]
    simp [genericFailureIndicator]
  · intro hpdf
    by_cases hip : isPdfFile f
    · have hcore : analyzeDocumentCore f now = (emptyAnalysisResult, true) := by
        unfold analyzeDocumentCore analyzePdfDocument
        rw [if_pos hip, hpdf]
      rw [hd, hcore]
      simp [emptyAnalysisResult]
    · exfalso
      have hfalse : (analyzeDocumentCore f now).2 = false := by
        unfold analyzeDocumentCore
        rw [if_neg hip]
      rw [h] at hfalse
      exact Bool.noConfusion hfalse

theorem analysis_failure_degrades_witness :
    ((analyzeDocument corruptPdfFile 0).suspiciousIndicators.filter
      (fun i => decide (i.field = "general")) = [genericFailureIndicator]) ∧
    ((analyzeDocument corruptPdfFile 0).suspiciousIndicators = [genericFailureIndicator]) :=
  ⟨(analysis_failure_degrades corruptPdfFile 0 (by decide)).1,
   (analysis_failure_degrades corruptPdfFile 0 (by decide)).2.2 rfl⟩
